import Mathlib

/-!
# Lunar lander physics core: shallow embedding and verification

This file embeds the physics core of the `timbeauchamp/lunarlander` repository:

* `LanderPhysics.update` (src/LanderPhysics.js, lines 35-69): phase-split
  burn/coast integrator on a plain altitude/velocity/fuel state, with a
  ground clamp that zeroes the velocity.  The module's arithmetic contains
  no square roots, so it is embedded executably over `ℚ`.
* `interpolateTouchdown` (src/LunarLander.js, lines 37-68): closed-form
  within-step touchdown solver.  It calls `Math.sqrt`, so it (and the React
  step function that consumes it) is embedded over `ℝ` with `Real.sqrt`.
* `llStepOnce` (src/LunarLander.js, lines 216-284): the React component's
  `stepOnce`, specialized to the default parameters (`g = 1.62`,
  `aThrustMax = 6.0`, `maxBurn = 200`, `landingSpeedSafe = 2.0`) with the
  step duration `dt` kept as an argument (the component reads it from the
  tunable `params.dt`).
* `asciiStepOnce` (src/ascii.js, lines 51-89): the ASCII renderer's
  `stepOnce`, which uses the fixed `DEFAULTS` of that file (`dt = 10`).
  Its contact branch computes a contact time into a local variable and then
  never uses it (dead code in the source); the branch finalizes with the
  full-step velocity `v1` and the full step duration.

Numbers are idealized as exact rationals/reals; JavaScript `Math.round` is
`fun x => ⌊x + 0.5⌋`, `Math.max`/`Math.min` are `max`/`min`.
-/

namespace LunarLanderSpec

/-- Flight status of a simulation session (`"flying" | "out_of_fuel" |
"landed" | "crashed"` in src/LunarLander.js and src/ascii.js). -/
inductive Status where
  | flying
  | out_of_fuel
  | landed
  | crashed
  deriving DecidableEq

/-- State held by the `LanderPhysics` class (src/LanderPhysics.js, lines
18-23): altitude (m), down-positive velocity (m/s), fuel (units). -/
structure PhysState where
  altitude : ℚ
  velocityDown : ℚ
  fuel : ℚ
  deriving DecidableEq

/-- Session state of the renderers (src/LunarLander.js hook state /
src/ascii.js module-level variables): altitude, down-positive velocity,
fuel, elapsed time, and flight status. -/
structure SimState (α : Type) where
  altitude : α
  velocityDown : α
  fuel : α
  time : α
  status : Status
  deriving DecidableEq

/-! ## Rational-valued embedding: LanderPhysics.js and ascii.js -/

/-- `clamp(n, lo, hi) = Math.max(lo, Math.min(hi, n))`
(src/LanderPhysics.js lines 14-16, src/ascii.js line 14). -/
def clampQ (n lo hi : ℚ) : ℚ := max lo (min hi n)

/-- JavaScript `Math.round` (round half toward positive infinity). -/
def jsRoundQ (x : ℚ) : ℚ := ((⌊x + 0.5⌋ : ℤ) : ℚ)

/-- Gravity-only kinematics for a duration `t`, exactly as written in
src/LanderPhysics.js lines 39-41 and 62-64: the velocity is updated first
and the altitude formula then uses the updated velocity. -/
def physCoastFrom (t : ℚ) (s : PhysState) : PhysState :=
  let v1 := s.velocityDown + 1.62 * t
  { altitude := s.altitude - (v1 * t - 0.5 * 1.62 * t * t)
    velocityDown := v1
    fuel := s.fuel }

/-- Burn phase of `LanderPhysics.update` (src/LanderPhysics.js lines
46-58): thrust from the affordable burn `possibleBurn = min(bc, fuel)` for
the sub-duration `dt * possibleBurn / bc`, then fuel deduction. -/
def physBurnOnly (dt bc : ℚ) (s : PhysState) : PhysState :=
  let possibleBurn := min bc s.fuel
  let burnFrac := possibleBurn / bc
  let tBurn := dt * burnFrac
  let aUp := (possibleBurn / 200) * 6.0
  let aBurn := 1.62 - aUp
  let v1 := s.velocityDown + aBurn * tBurn
  { altitude := s.altitude - (v1 * tBurn - 0.5 * aBurn * tBurn * tBurn)
    velocityDown := v1
    fuel := s.fuel - possibleBurn }

/-- `LanderPhysics.update` before the final ground clamp
(src/LanderPhysics.js lines 35-65): full coast when the clamped burn is
non-positive or the tank is empty, otherwise burn phase followed by a
conditional coast phase (`tCoast > 0 && altitude > 0`). -/
def physRaw (dt burn : ℚ) (s : PhysState) : PhysState :=
  let bc := clampQ burn 0 200
  if bc ≤ 0 ∨ s.fuel ≤ 0 then
    physCoastFrom dt s
  else
    let s1 := physBurnOnly dt bc s
    let tCoast := dt - dt * (min bc s.fuel / bc)
    if 0 < tCoast ∧ 0 < s1.altitude then physCoastFrom tCoast s1 else s1

/-- Ground clamp of `LanderPhysics.update` (src/LanderPhysics.js lines 42
and 67): `if (altitude < 0) { altitude = 0; velocityDown = 0; }`. -/
def groundClamp (s : PhysState) : PhysState :=
  if s.altitude < 0 then
    { altitude := 0, velocityDown := 0, fuel := s.fuel }
  else s

/-- `LanderPhysics.update(dt, burn)` (src/LanderPhysics.js lines 35-69). -/
def LanderPhysics.update (dt burn : ℚ) (s : PhysState) : PhysState :=
  groundClamp (physRaw dt burn s)

/-- Net down-positive acceleration computed by the ascii renderer's
`stepOnce` (src/ascii.js lines 54-58): the requested burn is rounded,
clamped to `[0, 200]`, converted to a throttle fraction, and applied as
upward thrust against gravity.  Note: the available fuel is never
consulted. -/
def asciiAccel (burn : ℚ) : ℚ :=
  let b := clampQ (jsRoundQ burn) 0 200
  let throttle := if (200 : ℚ) > 0 then b / 200 else 0
  1.62 - 6.0 * throttle

/-- `stepOnce(burn)` of the ASCII renderer (src/ascii.js lines 51-89),
with the fixed `DEFAULTS` of that file (`dt = 10`).  The source's contact
branch computes a `tContact` local variable but never reads it; the branch
sets `altitude = 0`, keeps the full-step velocity `v1`, and the step has
already advanced `time` by the full `dt`. -/
def asciiStepOnce (burn : ℚ) (s : SimState ℚ) : SimState ℚ :=
  if s.status = Status.flying ∨ s.status = Status.out_of_fuel then
    if s.altitude ≤ 0 then s
    else
      let b := clampQ (jsRoundQ burn) 0 200
      let fuelAfter := max 0 (s.fuel - b)
      let a := asciiAccel burn
      let v1 := s.velocityDown + a * 10
      let h1 := s.altitude - s.velocityDown * 10 - 0.5 * a * 10 * 10
      let time1 := s.time + 10
      if h1 ≤ 0 then
        { altitude := 0, velocityDown := v1, fuel := fuelAfter, time := time1
          status := if |v1| ≤ 2.0 then Status.landed else Status.crashed }
      else
        { altitude := h1, velocityDown := v1, fuel := fuelAfter, time := time1
          status := if fuelAfter ≤ 0 ∧ s.status = Status.flying then Status.out_of_fuel
                    else s.status }
  else s

/-! ## Real-valued embedding: LunarLander.js -/

/-- `clamp(n, lo, hi)` of src/LunarLander.js lines 18-20. -/
noncomputable def clampR (n lo hi : ℝ) : ℝ := max lo (min hi n)

/-- JavaScript `Math.round` over the reals. -/
noncomputable def jsRound (x : ℝ) : ℝ := ((⌊x + 0.5⌋ : ℤ) : ℝ)

/-- Contact-time computation of `interpolateTouchdown`
(src/LunarLander.js lines 37-63): solve `0.5*a*t^2 + v*t - h = 0` for
`t ∈ (0, dt]`.  With `|0.5*aNet| < 1e-8` the linear fallback `t = h / v`
is used when `v > 1e-8`.  Otherwise the quadratic formula is applied; a
discriminant in `(-1e-12, 0)` is clamped to `0`, both roots are filtered
to `(0, dt]`, and the smaller surviving root is taken. -/
noncomputable def contactTime (h vDown aNet dt : ℝ) : Option ℝ :=
  if |0.5 * aNet| < 1e-8 then
    if vDown > 1e-8 then
      if 0 < h / vDown ∧ h / vDown ≤ dt then some (h / vDown) else none
    else none
  else
    let disc0 := vDown * vDown - 4 * (0.5 * aNet) * (-h)
    let disc := if disc0 < 0 ∧ disc0 > -1e-12 then 0 else disc0
    if 0 ≤ disc then
      let t1 := (-vDown + Real.sqrt disc) / (2 * (0.5 * aNet))
      let t2 := (-vDown - Real.sqrt disc) / (2 * (0.5 * aNet))
      if 0 < t1 ∧ t1 ≤ dt then
        if 0 < t2 ∧ t2 ≤ dt then some (min t1 t2) else some t1
      else if 0 < t2 ∧ t2 ≤ dt then some t2 else none
    else none

/-- `interpolateTouchdown(h, vDown, aNet, dt)` (src/LunarLander.js lines
37-68): the contact time paired with the velocity at contact
`vDown + aNet * tContact`, or `none`. -/
noncomputable def interpolateTouchdown (h vDown aNet dt : ℝ) : Option (ℝ × ℝ) :=
  Option.map (fun t => (t, vDown + aNet * t)) (contactTime h vDown aNet dt)

/-- Net down-positive acceleration computed by the React component's
`stepOnce` (src/LunarLander.js lines 231-235) at the default parameters:
`b = clamp(round(burn), 0, 200)`, `throttle = maxBurn > 0 ? b/maxBurn : 0`,
`a = g - aThrustMax * throttle`.  The available fuel is never consulted. -/
noncomputable def llAccel (burn : ℝ) : ℝ :=
  let b := clampR (jsRound burn) 0 200
  let throttle := if (200 : ℝ) > 0 then b / 200 else 0
  1.62 - 6.0 * throttle

/-- `stepOnce` of the React component (src/LunarLander.js lines 216-284)
at the default parameters, with the step duration `dt` as an argument.
Guarded by `canSubmit` (line 190); the `altitude <= 0` branch (lines
220-229) only resolves the status; otherwise the touchdown solver decides
between the contact finalization (lines 245-266) and the full-step
kinematic advance (lines 270-283). -/
noncomputable def llStepOnce (dt burn : ℝ) (s : SimState ℝ) : SimState ℝ :=
  if (s.status = Status.flying ∨ s.status = Status.out_of_fuel) ∧ 0 < s.altitude then
    if s.altitude ≤ 0 then
      { s with status := if |s.velocityDown| ≤ 2.0 then Status.landed else Status.crashed }
    else
      let b := clampR (jsRound burn) 0 200
      let fuelAfter := max 0 (s.fuel - b)
      let a := llAccel burn
      match interpolateTouchdown s.altitude s.velocityDown a dt with
      | some tv =>
          { altitude := 0, velocityDown := tv.2, fuel := fuelAfter
            time := s.time + tv.1
            status := if |tv.2| ≤ 2.0 then Status.landed else Status.crashed }
      | none =>
          { altitude := s.altitude - s.velocityDown * dt - 0.5 * a * dt * dt
            velocityDown := s.velocityDown + a * dt
            fuel := fuelAfter
            time := s.time + dt
            status := if fuelAfter ≤ 0 ∧ s.status = Status.flying then Status.out_of_fuel
                      else s.status }
  else s

/-- Default starting session of both renderers: altitude 1500 m, velocity
50 m/s down, fuel 1200, time 0, flying. -/
noncomputable def defaultStart : SimState ℝ :=
  { altitude := 1500, velocityDown := 50, fuel := 1200, time := 0, status := Status.flying }


theorem quad_ne_of_disc_neg (A B C : ℝ) (hD : B ^ 2 - 4 * A * C < 0) (t : ℝ) :
    A * t ^ 2 + B * t + C ≠ 0 := by
  intro h0
  have key : (2 * A * t + B) ^ 2 = B ^ 2 - 4 * A * C := by linear_combination 4 * A * h0
  nlinarith [sq_nonneg (2 * A * t + B)]

theorem quad_root_iff (A B C : ℝ) (hA : A ≠ 0) (hD : 0 ≤ B ^ 2 - 4 * A * C) (t : ℝ) :
    A * t ^ 2 + B * t + C = 0 ↔
      t = (-B + Real.sqrt (B ^ 2 - 4 * A * C)) / (2 * A) ∨
      t = (-B - Real.sqrt (B ^ 2 - 4 * A * C)) / (2 * A) := by
  have hs : Real.sqrt (B ^ 2 - 4 * A * C) ^ 2 = B ^ 2 - 4 * A * C := Real.sq_sqrt hD
  have h2A : (2 : ℝ) * A ≠ 0 := mul_ne_zero two_ne_zero hA
  constructor
  · intro h0
    have key : (2 * A * t + B - Real.sqrt (B ^ 2 - 4 * A * C)) *
        (2 * A * t + B + Real.sqrt (B ^ 2 - 4 * A * C)) = 0 := by
      linear_combination 4 * A * h0 - hs
    rcases mul_eq_zero.mp key with h1 | h1
    · left
      field_simp
      linarith
    · right
      field_simp
      linarith
  · intro h1
    rcases h1 with h1 | h1 <;> subst h1 <;> field_simp <;>
      linear_combination 2 * A ^ 2 * hs

theorem contactTime_quadratic_spec (h v a d : ℝ) (hd : 0 < d)
    (hA : 1e-8 ≤ |0.5 * a|)
    (hguard : ¬ (v * v - 4 * (0.5 * a) * -h < 0 ∧ v * v - 4 * (0.5 * a) * -h > -1e-12)) :
    (∀ t, contactTime h v a d = some t →
        (0 < t ∧ t ≤ d ∧ 0.5 * a * t ^ 2 + v * t - h = 0) ∧
        ∀ t', 0 < t' → t' ≤ d → 0.5 * a * t' ^ 2 + v * t' - h = 0 → t ≤ t') ∧
    (contactTime h v a d = none →
        ∀ t, 0 < t → t ≤ d → 0.5 * a * t ^ 2 + v * t - h ≠ 0) := by
  have hA0 : (0.5 : ℝ) * a ≠ 0 := by
    intro hz
    rw [hz] at hA
    norm_num at hA
  simp only [contactTime]
  rw [if_neg (not_lt.mpr hA), if_neg hguard]
  by_cases hdisc : 0 ≤ v * v - 4 * (0.5 * a) * -h
  · -- nonnegative discriminant: the two quadratic-formula roots
    rw [if_pos hdisc]
    have hDf : v ^ 2 - 4 * (0.5 * a) * -h = v * v - 4 * (0.5 * a) * -h := by ring
    have hroot : ∀ t : ℝ, 0.5 * a * t ^ 2 + v * t - h = 0 ↔
        t = (-v + Real.sqrt (v * v - 4 * (0.5 * a) * -h)) / (2 * (0.5 * a)) ∨
        t = (-v - Real.sqrt (v * v - 4 * (0.5 * a) * -h)) / (2 * (0.5 * a)) := by
      intro t
      have := quad_root_iff (0.5 * a) v (-h) hA0 (by rw [hDf]; exact hdisc) t
      rw [hDf] at this
      rw [show 0.5 * a * t ^ 2 + v * t - h = 0.5 * a * t ^ 2 + v * t + -h from by ring]
      exact this
    set t1 := (-v + Real.sqrt (v * v - 4 * (0.5 * a) * -h)) / (2 * (0.5 * a)) with ht1
    set t2 := (-v - Real.sqrt (v * v - 4 * (0.5 * a) * -h)) / (2 * (0.5 * a)) with ht2
    have hr1 : 0.5 * a * t1 ^ 2 + v * t1 - h = 0 := (hroot t1).mpr (Or.inl rfl)
    have hr2 : 0.5 * a * t2 ^ 2 + v * t2 - h = 0 := (hroot t2).mpr (Or.inr rfl)
    by_cases hq1 : 0 < t1 ∧ t1 ≤ d
    · rw [if_pos hq1]
      by_cases hq2 : 0 < t2 ∧ t2 ≤ d
      · rw [if_pos hq2]
        refine ⟨fun t ht => ?_, fun ht => by simp at ht⟩
        have htmin : t = min t1 t2 := (Option.some_inj.mp ht).symm
        subst htmin
        refine ⟨⟨lt_min hq1.1 hq2.1, le_trans (min_le_left _ _) hq1.2, ?_⟩, ?_⟩
        · rcases min_choice t1 t2 with hm | hm <;> rw [hm]
          · exact hr1
          · exact hr2
        · intro t' _ _ hr'
          rcases (hroot t').mp hr' with h' | h' <;> subst h'
          · exact min_le_left _ _
          · exact min_le_right _ _
      · rw [if_neg hq2]
        refine ⟨fun t ht => ?_, fun ht => by simp at ht⟩
        have htt : t = t1 := (Option.some_inj.mp ht).symm
        subst htt
        refine ⟨⟨hq1.1, hq1.2, hr1⟩, ?_⟩
        intro t' ht'0 ht'd hr'
        rcases (hroot t').mp hr' with h' | h' <;> subst h'
        · exact le_refl _
        · exact absurd ⟨ht'0, ht'd⟩ hq2
    · rw [if_neg hq1]
      by_cases hq2 : 0 < t2 ∧ t2 ≤ d
      · rw [if_pos hq2]
        refine ⟨fun t ht => ?_, fun ht => by simp at ht⟩
        have htt : t = t2 := (Option.some_inj.mp ht).symm
        subst htt
        refine ⟨⟨hq2.1, hq2.2, hr2⟩, ?_⟩
        intro t' ht'0 ht'd hr'
        rcases (hroot t').mp hr' with h' | h' <;> subst h'
        · exact absurd ⟨ht'0, ht'd⟩ hq1
        · exact le_refl _
      · rw [if_neg hq2]
        refine ⟨fun t ht => by simp at ht, fun _ t ht0 htd hr' => ?_⟩
        rcases (hroot t).mp hr' with h' | h' <;> subst h'
        · exact hq1 ⟨ht0, htd⟩
        · exact hq2 ⟨ht0, htd⟩
  · rw [if_neg hdisc]
    refine ⟨fun t ht => by simp at ht, fun _ t _ _ hr => ?_⟩
    have := quad_ne_of_disc_neg (0.5 * a) v (-h)
      (by rw [show v ^ 2 - 4 * (0.5 * a) * -h = v * v - 4 * (0.5 * a) * -h from by ring]; linarith) t
    rw [show 0.5 * a * t ^ 2 + v * t - h = 0.5 * a * t ^ 2 + v * t + -h from by ring] at hr
    exact this hr


theorem contactTime_linear_spec (h v a d : ℝ) (hA : |0.5 * a| < 1e-8) :
    contactTime h v a d =
      if v > 1e-8 ∧ 0 < h / v ∧ h / v ≤ d then some (h / v) else none := by
  simp only [contactTime]
  rw [if_pos hA]
  by_cases hv : v > 1e-8
  · rw [if_pos hv]
    by_cases hr : 0 < h / v ∧ h / v ≤ d
    · rw [if_pos hr, if_pos ⟨hv, hr⟩]
    · rw [if_neg hr, if_neg (fun hc => hr ⟨hc.2.1, hc.2.2⟩)]
  · rw [if_neg hv, if_neg (fun hc => hv hc.1)]

theorem contactTime_none_quadratic (h v a d : ℝ) (hh : 0 < h) (hd : 0 < d)
    (hA : 1e-8 ≤ |0.5 * a|) (hnone : contactTime h v a d = none) :
    0 < h - v * d - 0.5 * a * d * d := by
  have hA0 : (0.5 : ℝ) * a ≠ 0 := by
    intro hz
    rw [hz] at hA
    norm_num at hA
  by_cases hdisc : 0 ≤ v * v - 4 * (0.5 * a) * -h
  · -- roots exist; none means both fall outside (0, d]; IVT forces f(d) > 0
    simp only [contactTime] at hnone
    rw [if_neg (not_lt.mpr hA),
      if_neg (show ¬ (v * v - 4 * (0.5 * a) * -h < 0 ∧ v * v - 4 * (0.5 * a) * -h > -1e-12)
        from fun hc => absurd hdisc (not_le.mpr hc.1)),
      if_pos hdisc] at hnone
    have hDf : v ^ 2 - 4 * (0.5 * a) * -h = v * v - 4 * (0.5 * a) * -h := by ring
    have hroot : ∀ t : ℝ, 0.5 * a * t ^ 2 + v * t - h = 0 →
        t = (-v + Real.sqrt (v * v - 4 * (0.5 * a) * -h)) / (2 * (0.5 * a)) ∨
        t = (-v - Real.sqrt (v * v - 4 * (0.5 * a) * -h)) / (2 * (0.5 * a)) := by
      intro t ht
      have := (quad_root_iff (0.5 * a) v (-h) hA0 (by rw [hDf]; exact hdisc) t).mp
        (by linear_combination ht)
      rw [hDf] at this
      exact this
    set t1 := (-v + Real.sqrt (v * v - 4 * (0.5 * a) * -h)) / (2 * (0.5 * a)) with ht1
    set t2 := (-v - Real.sqrt (v * v - 4 * (0.5 * a) * -h)) / (2 * (0.5 * a)) with ht2
    have hq1 : ¬ (0 < t1 ∧ t1 ≤ d) := by
      intro hq
      rw [if_pos hq] at hnone
      by_cases hq2 : 0 < t2 ∧ t2 ≤ d
      · rw [if_pos hq2] at hnone
        exact Option.noConfusion hnone
      · rw [if_neg hq2] at hnone
        exact Option.noConfusion hnone
    have hq2 : ¬ (0 < t2 ∧ t2 ≤ d) := by
      intro hq
      rw [if_neg hq1, if_pos hq] at hnone
      exact Option.noConfusion hnone
    by_contra hfd
    push_neg at hfd
    have hgd : 0 ≤ 0.5 * a * d ^ 2 + v * d - h := by nlinarith
    have hcont : ContinuousOn (fun t : ℝ => 0.5 * a * t ^ 2 + v * t - h) (Set.Icc 0 d) :=
      (((continuous_const.mul (continuous_pow 2)).add
        (continuous_const.mul continuous_id)).sub continuous_const).continuousOn
    have hmem : (0 : ℝ) ∈ Set.Icc ((fun t : ℝ => 0.5 * a * t ^ 2 + v * t - h) 0)
        ((fun t : ℝ => 0.5 * a * t ^ 2 + v * t - h) d) := by
      refine Set.mem_Icc.mpr ⟨?_, ?_⟩
      · show 0.5 * a * (0:ℝ) ^ 2 + v * 0 - h ≤ 0
        nlinarith
      · show (0:ℝ) ≤ 0.5 * a * d ^ 2 + v * d - h
        exact hgd
    obtain ⟨r, hrIcc, hr0⟩ := intermediate_value_Icc (le_of_lt hd) hcont hmem
    have hrpos : 0 < r := by
      rcases lt_or_eq_of_le hrIcc.1 with hlt | heq
      · exact hlt
      · exfalso
        rw [← heq] at hr0
        have hb : 0.5 * a * (0:ℝ) ^ 2 + v * 0 - h = 0 := hr0
        norm_num at hb
        linarith
    rcases hroot r hr0 with hr' | hr' <;> subst hr'
    · exact hq1 ⟨hrpos, hrIcc.2⟩
    · exact hq2 ⟨hrpos, hrIcc.2⟩
  · -- negative discriminant: the parabola never crosses zero, so f(d) > 0
    push_neg at hdisc
    have hAneg : 0.5 * a < 0 := by nlinarith [sq_nonneg v]
    nlinarith [sq_nonneg (2 * (0.5 * a) * d + v)]

theorem contactTime_none_linear (h v d : ℝ) (hh : 0 < h) (hd : 0 < d)
    (hv : 1e-8 < v ∨ v ≤ 0) (hnone : contactTime h v 0 d = none) :
    0 < h - v * d := by
  rcases hv with hv | hv
  · rw [contactTime_linear_spec h v 0 d (by norm_num)] at hnone
    have hhv : 0 < h / v := div_pos hh (by linarith)
    by_cases hle : h / v ≤ d
    · rw [if_pos ⟨hv, hhv, hle⟩] at hnone
      exact Option.noConfusion hnone
    · push_neg at hle
      have hdv : d * v < h := (lt_div_iff₀ (show (0:ℝ) < v by linarith)).mp hle
      nlinarith
  · nlinarith


/-- C1: the touchdown solver, for altitude `h > 0` and duration `d > 0`:
in the quadratic regime (away from the discriminant guard) it returns the
smallest root of `0.5*a*t^2 + v*t - h = 0` in `(0, d]` together with the
contact velocity `v + a*t`, and `none` when no such root exists; in the
degenerate regime it returns `h / v` when `v > 1e-8` and that time is in
`(0, d]`, else `none`; and on `h = 100, v = 10, a = 0, d = 20` it returns
contact time exactly `10`. -/
theorem C1_touchdown_solver (h v a d : ℝ) (hh : 0 < h) (hd : 0 < d) :
    (1e-8 ≤ |0.5 * a| →
      ¬ (v * v - 4 * (0.5 * a) * -h < 0 ∧ v * v - 4 * (0.5 * a) * -h > -1e-12) →
      (∀ t vc, interpolateTouchdown h v a d = some (t, vc) →
          (0 < t ∧ t ≤ d ∧ 0.5 * a * t ^ 2 + v * t - h = 0) ∧ vc = v + a * t ∧
          ∀ t', 0 < t' → t' ≤ d → 0.5 * a * t' ^ 2 + v * t' - h = 0 → t ≤ t') ∧
      (interpolateTouchdown h v a d = none →
          ∀ t, 0 < t → t ≤ d → 0.5 * a * t ^ 2 + v * t - h ≠ 0)) ∧
    (|0.5 * a| < 1e-8 →
      interpolateTouchdown h v a d =
        if v > 1e-8 ∧ 0 < h / v ∧ h / v ≤ d then some (h / v, v + a * (h / v)) else none) ∧
    interpolateTouchdown 100 10 0 20 = some (10, 10) := by
  refine ⟨fun hA hguard => ⟨?_, ?_⟩, fun hA => ?_, ?_⟩
  · intro t vc hsome
    rw [interpolateTouchdown, Option.map_eq_some'] at hsome
    obtain ⟨t0, hct, hf⟩ := hsome
    obtain ⟨ht, hvc⟩ := Prod.mk.injEq _ _ _ _ ▸ hf
    subst ht
    obtain ⟨h1, h2⟩ := (contactTime_quadratic_spec h v a d hd hA hguard).1 t0 hct
    exact ⟨h1, hvc.symm, h2⟩
  · intro hnone
    rw [interpolateTouchdown, Option.map_eq_none'] at hnone
    exact (contactTime_quadratic_spec h v a d hd hA hguard).2 hnone
  · rw [interpolateTouchdown, contactTime_linear_spec h v a d hA]
    by_cases hc : v > 1e-8 ∧ 0 < h / v ∧ h / v ≤ d
    · rw [if_pos hc, if_pos hc]
      rfl
    · rw [if_neg hc, if_neg hc]
      rfl
  · unfold interpolateTouchdown contactTime
    norm_num

/-- C1 counterexample: with `h = 1 + 1e-13`, `v = 2`, `a = -2`, `d = 10`
the discriminant is `-4e-13`, which the floating-point guard clamps to
zero; the solver reports contact at `t = 1` even though
`0.5*a*t^2 + v*t - h` is negative there (and, being `-(t-1)^2 - 1e-13`,
has no root at all), contradicting the claim that `none` is returned when
no root exists. -/
theorem C1_guard_counterexample :
    interpolateTouchdown (1 + 1e-13) 2 (-2) 10 = some (1, 0) ∧
    0.5 * (-2 : ℝ) * 1 ^ 2 + 2 * 1 - (1 + 1e-13) < 0 := by
  constructor
  · unfold interpolateTouchdown contactTime
    norm_num
  · norm_num

/-- C1 witness: the theorem applied at the concrete touchdown-exactness
instance `h = 100, v = 10, a = 0, d = 20`. -/
theorem C1_touchdown_solver_witness :
    interpolateTouchdown 100 10 0 20 = some (10, 10) :=
  (C1_touchdown_solver 100 10 0 20 (by norm_num) (by norm_num)).2.2


/-- C7: once the status is `landed` or `crashed`, a further step call is a
no-op on the whole observable state, in both the React component
(`canSubmit` gate, src/LunarLander.js lines 190 and 216-217) and the ascii
renderer (src/ascii.js lines 51-53). -/
theorem C7_terminal_absorbing (dt burn : ℝ) (burnq : ℚ) (s : SimState ℝ) (sq : SimState ℚ)
    (hs : s.status = Status.landed ∨ s.status = Status.crashed)
    (hsq : sq.status = Status.landed ∨ sq.status = Status.crashed) :
    llStepOnce dt burn s = s ∧ asciiStepOnce burnq sq = sq := by
  constructor
  · rw [llStepOnce, if_neg]
    rintro ⟨hfly, -⟩
    rcases hs with h' | h' <;> rcases hfly with h2 | h2 <;> rw [h'] at h2 <;>
      exact Status.noConfusion h2
  · rw [asciiStepOnce, if_neg]
    intro hfly
    rcases hsq with h' | h' <;> rcases hfly with h2 | h2 <;> rw [h'] at h2 <;>
      exact Status.noConfusion h2

/-- C7 witness: a crashed React session and a landed ascii session are
left exactly as they are by a further step. -/
theorem C7_terminal_absorbing_witness :
    llStepOnce 10 0 ⟨0, 5, 0, 60, Status.crashed⟩ = ⟨0, 5, 0, 60, Status.crashed⟩ ∧
    asciiStepOnce 0 ⟨0, 5, 0, 60, Status.landed⟩ = ⟨0, 5, 0, 60, Status.landed⟩ :=
  C7_terminal_absorbing 10 0 0 _ _ (Or.inr rfl) (Or.inl rfl)

/-- C10: whenever the kinematic update of `LanderPhysics.update` would
leave the altitude negative, the returned state has `altitude = 0` and
`velocityDown = 0` (src/LanderPhysics.js lines 42 and 67): the impact
velocity is discarded, only the fuel survives. -/
theorem C10_ground_clamp_discards_velocity (dt burn : ℚ) (s : PhysState)
    (hneg : (physRaw dt burn s).altitude < 0) :
    (LanderPhysics.update dt burn s).altitude = 0 ∧
    (LanderPhysics.update dt burn s).velocityDown = 0 ∧
    (LanderPhysics.update dt burn s).fuel = (physRaw dt burn s).fuel := by
  rw [LanderPhysics.update, groundClamp, if_pos hneg]
  exact ⟨rfl, rfl, rfl⟩

/-- C10 witness: from altitude 1, velocity 5 down, no burn, a 1 s step
overshoots the ground and the class reports a zero-velocity touchdown. -/
theorem C10_ground_clamp_witness :
    (LanderPhysics.update 1 0 ⟨1, 5, 0⟩).altitude = 0 ∧
    (LanderPhysics.update 1 0 ⟨1, 5, 0⟩).velocityDown = 0 := by
  have h := C10_ground_clamp_discards_velocity 1 0 ⟨1, 5, 0⟩
    (by norm_num [physRaw, physCoastFrom, clampQ])
  exact ⟨h.1, h.2.1⟩

/-- C4 (code bug): with `fuel = 0` and `requestedBurn = 200` both renderer
step functions still apply full thrust — the net acceleration is
`1.62 - 6.0 = -4.38`, so the velocity becomes `-43.8` after a 10 s step
instead of the gravity-only `0 + 1.62 * 10`.  Only `LanderPhysics.update`
implements the claimed behaviour. -/
theorem C4_zero_fuel_still_thrusts :
    (llStepOnce 10 200 ⟨1000, 0, 0, 0, Status.out_of_fuel⟩).velocityDown = -43.8 ∧
    (asciiStepOnce 200 ⟨1000, 0, 0, 0, Status.out_of_fuel⟩).velocityDown = -43.8 ∧
    ((-43.8 : ℝ) ≠ 0 + 1.62 * 10) ∧
    (LanderPhysics.update 10 200 ⟨1000, 0, 0⟩).velocityDown = 0 + 1.62 * 10 := by
  refine ⟨?_, ?_, by norm_num, ?_⟩
  · have ha : llAccel 200 = -(219 / 50 : ℝ) := by
      unfold llAccel clampR jsRound
      norm_num
    have hc : interpolateTouchdown 1000 0 (-(219 / 50 : ℝ)) 10 = none := by
      unfold interpolateTouchdown contactTime
      norm_num
    simp only [llStepOnce, ha]
    norm_num [hc]
  · norm_num [asciiStepOnce, asciiAccel, clampQ, jsRoundQ]
  · norm_num [LanderPhysics.update, physRaw, physCoastFrom, groundClamp, clampQ]

/-- C8: a zero-burn step of `LanderPhysics.update` that stays above
ground is pure gravity: `v' = v + g*dt`,
`h' = h - v*dt - 0.5*g*dt^2`, fuel unchanged. -/
theorem C8_pure_gravity_step (dt : ℚ) (s : PhysState) (hdt : 0 < dt)
    (hnc : 0 ≤ s.altitude - s.velocityDown * dt - 0.5 * 1.62 * dt * dt) :
    (LanderPhysics.update dt 0 s).altitude
        = s.altitude - s.velocityDown * dt - 0.5 * 1.62 * dt * dt ∧
    (LanderPhysics.update dt 0 s).velocityDown = s.velocityDown + 1.62 * dt ∧
    (LanderPhysics.update dt 0 s).fuel = s.fuel := by
  have hval : physRaw dt 0 s =
      ⟨s.altitude - s.velocityDown * dt - 0.5 * 1.62 * dt * dt,
        s.velocityDown + 1.62 * dt, s.fuel⟩ := by
    rw [physRaw, if_pos (Or.inl (by norm_num [clampQ]))]
    rw [physCoastFrom]
    simp only [PhysState.mk.injEq]
    constructor
    · ring
    · trivial
  rw [LanderPhysics.update, hval, groundClamp]
  rw [if_neg (not_lt.mpr hnc)]
  exact ⟨rfl, rfl, rfl⟩

/-- C8 witness: the default state stepped 1 s with no burn. -/
theorem C8_pure_gravity_witness :
    (LanderPhysics.update 1 0 ⟨1500, 50, 1200⟩).altitude = 1500 - 50 * 1 - 0.5 * 1.62 * 1 * 1 ∧
    (LanderPhysics.update 1 0 ⟨1500, 50, 1200⟩).velocityDown = 50 + 1.62 * 1 ∧
    (LanderPhysics.update 1 0 ⟨1500, 50, 1200⟩).fuel = 1200 :=
  C8_pure_gravity_step 1 ⟨1500, 50, 1200⟩ (by norm_num) (by norm_num)


theorem llStepOnce_contact (dt burn t vc : ℝ) (s : SimState ℝ)
    (hst : s.status = Status.flying ∨ s.status = Status.out_of_fuel)
    (hh : 0 < s.altitude)
    (hc : interpolateTouchdown s.altitude s.velocityDown (llAccel burn) dt = some (t, vc)) :
    llStepOnce dt burn s =
      { altitude := 0, velocityDown := vc
        fuel := max 0 (s.fuel - clampR (jsRound burn) 0 200)
        time := s.time + t
        status := if |vc| ≤ 2.0 then Status.landed else Status.crashed } := by
  simp only [llStepOnce]
  rw [if_pos ⟨hst, hh⟩, if_neg (not_le.mpr hh), hc]

theorem llStepOnce_noContact (dt burn : ℝ) (s : SimState ℝ)
    (hst : s.status = Status.flying ∨ s.status = Status.out_of_fuel)
    (hh : 0 < s.altitude)
    (hc : interpolateTouchdown s.altitude s.velocityDown (llAccel burn) dt = none) :
    llStepOnce dt burn s =
      { altitude := s.altitude - s.velocityDown * dt - 0.5 * llAccel burn * dt * dt
        velocityDown := s.velocityDown + llAccel burn * dt
        fuel := max 0 (s.fuel - clampR (jsRound burn) 0 200)
        time := s.time + dt
        status := if max 0 (s.fuel - clampR (jsRound burn) 0 200) ≤ 0 ∧ s.status = Status.flying
          then Status.out_of_fuel else s.status } := by
  simp only [llStepOnce]
  rw [if_pos ⟨hst, hh⟩, if_neg (not_le.mpr hh), hc]

/-- C2 (amended): in the React component's `stepOnce`, when the touchdown
solver reports contact at time `t`, the final state has altitude `0`,
velocity equal to the contact velocity `v + a*t` implied by
constant-acceleration motion, and the elapsed time advanced by exactly
`t`, not by the full `dt`.  (The ascii renderer's step does not do this;
see the counterexample.) -/
theorem C2_contact_finalization (dt burn t vc : ℝ) (s : SimState ℝ)
    (hst : s.status = Status.flying ∨ s.status = Status.out_of_fuel)
    (hh : 0 < s.altitude)
    (hc : interpolateTouchdown s.altitude s.velocityDown (llAccel burn) dt = some (t, vc)) :
    (llStepOnce dt burn s).altitude = 0 ∧
    (llStepOnce dt burn s).velocityDown = s.velocityDown + llAccel burn * t ∧
    (llStepOnce dt burn s).time = s.time + t := by
  have hvc : vc = s.velocityDown + llAccel burn * t := by
    rw [interpolateTouchdown, Option.map_eq_some'] at hc
    obtain ⟨t0, -, hf⟩ := hc
    obtain ⟨ht0, hvc0⟩ := Prod.mk.injEq _ _ _ _ ▸ hf
    rw [← hvc0, ht0]
  rw [llStepOnce_contact dt burn t vc s hst hh hc]
  exact ⟨rfl, hvc, rfl⟩

/-- C2 counterexample: the ascii renderer's step from altitude `281/4`,
velocity `10` down, burn `0` detects contact inside the 10 s step (the
true contact time is `5`, a root of the quadratic strictly inside the
step), yet finalizes with the full-step velocity `26.2` instead of the
contact velocity `10 + 1.62*5 = 18.1`, and advances time by the full 10 s
instead of 5 s. -/
theorem C2_ascii_counterexample :
    (asciiStepOnce 0 ⟨281/4, 10, 100, 0, Status.flying⟩).altitude = 0 ∧
    (asciiStepOnce 0 ⟨281/4, 10, 100, 0, Status.flying⟩).velocityDown = 26.2 ∧
    (asciiStepOnce 0 ⟨281/4, 10, 100, 0, Status.flying⟩).time = 10 ∧
    0.5 * 1.62 * 5 ^ 2 + 10 * 5 - 281/4 = (0 : ℚ) ∧
    (0 : ℚ) < 5 ∧ (5 : ℚ) < 10 ∧
    (26.2 : ℚ) ≠ 10 + 1.62 * 5 ∧ (10 : ℚ) ≠ 0 + 5 := by
  refine ⟨?_, ?_, ?_, by norm_num, by norm_num, by norm_num, by norm_num, by norm_num⟩ <;>
    norm_num [asciiStepOnce, asciiAccel, clampQ, jsRoundQ]

/-- C2 witness: a degenerate-regime touchdown (burn 54 makes the net
acceleration exactly zero) from altitude 100 at 10 m/s down contacts at
`t = 10` with contact velocity 10; the step finalizes there. -/
theorem C2_contact_finalization_witness :
    (llStepOnce 10 54 ⟨100, 10, 500, 0, Status.flying⟩).altitude = 0 ∧
    (llStepOnce 10 54 ⟨100, 10, 500, 0, Status.flying⟩).velocityDown = 10 + llAccel 54 * 10 ∧
    (llStepOnce 10 54 ⟨100, 10, 500, 0, Status.flying⟩).time = 0 + 10 := by
  have ha : llAccel 54 = 0 := by
    unfold llAccel clampR jsRound
    norm_num
  have hc : interpolateTouchdown (100:ℝ) 10 (llAccel 54) 10 = some (10, 10) := by
    rw [ha]
    unfold interpolateTouchdown contactTime
    norm_num
  exact C2_contact_finalization 10 54 10 10 ⟨100, 10, 500, 0, Status.flying⟩
    (Or.inl rfl) (by norm_num) hc

/-- C6: whenever a step puts the lander on the ground, the resolved
status is `landed` iff the magnitude of the contact velocity is at most
the safe landing speed `2.0` (so the boundary case lands), and `crashed`
otherwise — in the React component (contact velocity from the solver) and
in the ascii renderer (its contact velocity being the full-step `v1`). -/
theorem C6_terminal_classification :
    (∀ (dt burn t vc : ℝ) (s : SimState ℝ),
      s.status = Status.flying ∨ s.status = Status.out_of_fuel →
      0 < s.altitude →
      interpolateTouchdown s.altitude s.velocityDown (llAccel burn) dt = some (t, vc) →
      ((llStepOnce dt burn s).status = Status.landed ↔ |vc| ≤ 2.0) ∧
      ((llStepOnce dt burn s).status = Status.crashed ↔ ¬ |vc| ≤ 2.0)) ∧
    (∀ (burn : ℚ) (s : SimState ℚ),
      s.status = Status.flying ∨ s.status = Status.out_of_fuel →
      0 < s.altitude →
      s.altitude - s.velocityDown * 10 - 0.5 * asciiAccel burn * 10 * 10 ≤ 0 →
      ((asciiStepOnce burn s).status = Status.landed ↔
        |s.velocityDown + asciiAccel burn * 10| ≤ 2.0) ∧
      ((asciiStepOnce burn s).status = Status.crashed ↔
        ¬ |s.velocityDown + asciiAccel burn * 10| ≤ 2.0)) := by
  constructor
  · intro dt burn t vc s hst hh hc
    rw [llStepOnce_contact dt burn t vc s hst hh hc]
    by_cases hv : |vc| ≤ 2.0
    · simp only [if_pos hv]
      constructor
      · exact ⟨fun _ => hv, fun _ => trivial⟩
      · exact ⟨fun h' => Status.noConfusion h', fun h' => absurd hv h'⟩
    · simp only [if_neg hv]
      constructor
      · exact ⟨fun h' => Status.noConfusion h', fun h' => absurd h' hv⟩
      · exact ⟨fun _ => hv, fun _ => trivial⟩
  · intro burn s hst hh h1
    simp only [asciiStepOnce]
    rw [if_pos hst, if_neg (not_le.mpr hh), if_pos h1]
    by_cases hv : |s.velocityDown + asciiAccel burn * 10| ≤ 2.0
    · simp only [if_pos hv]
      constructor
      · exact ⟨fun _ => hv, fun _ => trivial⟩
      · exact ⟨fun h' => Status.noConfusion h', fun h' => absurd hv h'⟩
    · simp only [if_neg hv]
      constructor
      · exact ⟨fun h' => Status.noConfusion h', fun h' => absurd h' hv⟩
      · exact ⟨fun _ => hv, fun _ => trivial⟩

/-- C6 witness: two boundary touchdowns at exactly the safe landing speed
2.0 — a React-session contact with contact velocity 2 and an ascii step
landing with full-step velocity 2 — are both classified `landed`. -/
theorem C6_terminal_classification_witness :
    (llStepOnce 10 54 ⟨10, 2, 100, 0, Status.flying⟩).status = Status.landed ∧
    (asciiStepOnce 54 ⟨20, 2, 100, 0, Status.flying⟩).status = Status.landed := by
  have ha : llAccel 54 = 0 := by
    unfold llAccel clampR jsRound
    norm_num
  have haq : asciiAccel 54 = 0 := by
    unfold asciiAccel clampQ jsRoundQ
    norm_num
  have hc : interpolateTouchdown (10:ℝ) 2 (llAccel 54) 10 = some (5, 2) := by
    rw [ha]
    unfold interpolateTouchdown contactTime
    norm_num
  constructor
  · exact ((C6_terminal_classification.1 10 54 5 2 ⟨10, 2, 100, 0, Status.flying⟩
      (Or.inl rfl) (by norm_num) hc).1).mpr (by norm_num)
  · refine ((C6_terminal_classification.2 54 ⟨20, 2, 100, 0, Status.flying⟩
      (Or.inl rfl) (by norm_num) ?_).1).mpr ?_
    · rw [haq]
      norm_num
    · rw [haq]
      norm_num


theorem groundClamp_fuel (s : PhysState) : (groundClamp s).fuel = s.fuel := by
  rw [groundClamp]
  split_ifs <;> rfl

theorem update_velocity_of_nonneg (dt burn : ℚ) (s : PhysState)
    (h : 0 ≤ (physRaw dt burn s).altitude) :
    (LanderPhysics.update dt burn s).velocityDown = (physRaw dt burn s).velocityDown := by
  rw [LanderPhysics.update, groundClamp, if_neg (not_lt.mpr h)]

theorem physRaw_sufficient (dt burn : ℚ) (s : PhysState)
    (hbc : 0 < clampQ burn 0 200) (hfuel : clampQ burn 0 200 ≤ s.fuel) :
    physRaw dt burn s = physBurnOnly dt (clampQ burn 0 200) s := by
  have hne : clampQ burn 0 200 ≠ 0 := ne_of_gt hbc
  have hmin : min (clampQ burn 0 200) s.fuel = clampQ burn 0 200 := min_eq_left hfuel
  have hcoast0 : dt - dt * (min (clampQ burn 0 200) s.fuel / clampQ burn 0 200) = 0 := by
    rw [hmin]
    field_simp
  simp only [physRaw]
  rw [if_neg (by push_neg; exact ⟨hbc, lt_of_lt_of_le hbc hfuel⟩)]
  rw [hcoast0, if_neg (fun hcond => lt_irrefl 0 hcond.1)]

theorem physRaw_splitBurn (dt burn : ℚ) (s : PhysState) (hdt : 0 < dt)
    (hf0 : 0 < s.fuel) (hflt : s.fuel < clampQ burn 0 200)
    (halt : 0 < (physBurnOnly dt (clampQ burn 0 200) s).altitude) :
    physRaw dt burn s =
      physCoastFrom (dt - dt * (s.fuel / clampQ burn 0 200))
        (physBurnOnly dt (clampQ burn 0 200) s) := by
  have hbc : 0 < clampQ burn 0 200 := lt_trans hf0 hflt
  have hmin : min (clampQ burn 0 200) s.fuel = s.fuel := min_eq_right (le_of_lt hflt)
  have hfrac : s.fuel / clampQ burn 0 200 < 1 := (div_lt_one hbc).mpr hflt
  have htc : 0 < dt - dt * (s.fuel / clampQ burn 0 200) := by nlinarith
  simp only [physRaw]
  rw [if_neg (by push_neg; exact ⟨hbc, hf0⟩)]
  rw [hmin, if_pos ⟨htc, halt⟩]

/-- Fuel bookkeeping of a partial burn: all remaining fuel is spent. -/
theorem update_fuel_splitBurn (dt burn : ℚ) (s : PhysState)
    (hf0 : 0 < s.fuel) (hflt : s.fuel < clampQ burn 0 200) :
    (LanderPhysics.update dt burn s).fuel = 0 := by
  have hbc : 0 < clampQ burn 0 200 := lt_trans hf0 hflt
  have hmin : min (clampQ burn 0 200) s.fuel = s.fuel := min_eq_right (le_of_lt hflt)
  rw [LanderPhysics.update, groundClamp_fuel]
  simp only [physRaw]
  rw [if_neg (by push_neg; exact ⟨hbc, hf0⟩)]
  rw [hmin]
  split_ifs
  · show (physBurnOnly dt (clampQ burn 0 200) s).fuel = 0
    simp only [physBurnOnly, hmin]
    ring
  · show (physBurnOnly dt (clampQ burn 0 200) s).fuel = 0
    simp only [physBurnOnly, hmin]
    ring

/-- Velocity after a partial burn followed by the remaining coast. -/
theorem update_velocity_splitBurn (dt burn : ℚ) (s : PhysState) (hdt : 0 < dt)
    (hf0 : 0 < s.fuel) (hflt : s.fuel < clampQ burn 0 200)
    (halt : 0 < (physBurnOnly dt (clampQ burn 0 200) s).altitude)
    (hraw : 0 ≤ (physRaw dt burn s).altitude) :
    (LanderPhysics.update dt burn s).velocityDown
      = s.velocityDown + (1.62 - s.fuel / 200 * 6.0) * (dt * (s.fuel / clampQ burn 0 200))
        + 1.62 * (dt - dt * (s.fuel / clampQ burn 0 200)) := by
  have hmin : min (clampQ burn 0 200) s.fuel = s.fuel := min_eq_right (le_of_lt hflt)
  rw [update_velocity_of_nonneg dt burn s hraw,
    physRaw_splitBurn dt burn s hdt hf0 hflt halt]
  simp only [physCoastFrom, physBurnOnly, hmin]

/-- C3 (amended): the thrust model of `LanderPhysics.update`.  The request
is clamped to `[0, 200]`; a non-positive clamped burn or an empty tank
coasts with fuel unchanged; with sufficient fuel the whole step burns at
`(clampedBurn/200)*6.0` and `fuelConsumed = clampedBurn`; with
insufficient fuel the step splits at `burnFraction = fuel/clampedBurn`,
fuel is driven exactly to 0, and — unlike the claim's full-thrust reading —
the burn-phase acceleration is computed from the affordable burn
(`possibleBurn = fuel`), i.e. `1.62 - (fuel/200)*6.0`; in the scenario
`fuel = 100 = maxBurn/2`, `requestedBurn = 200` the fuel ends at exactly 0
and the velocity change lies strictly between the full-thrust change
`(1.62-6.0)*dt` and the gravity-only change `1.62*dt`. -/
theorem C3_thrust_model (dt burn : ℚ) (s : PhysState) (hdt : 0 < dt) :
    ((clampQ burn 0 200 ≤ 0 ∨ s.fuel ≤ 0) → (LanderPhysics.update dt burn s).fuel = s.fuel) ∧
    (0 < clampQ burn 0 200 → clampQ burn 0 200 ≤ s.fuel →
      (LanderPhysics.update dt burn s).fuel = s.fuel - clampQ burn 0 200 ∧
      (0 ≤ (physRaw dt burn s).altitude →
        (LanderPhysics.update dt burn s).velocityDown
          = s.velocityDown + (1.62 - clampQ burn 0 200 / 200 * 6.0) * dt)) ∧
    (0 < s.fuel → s.fuel < clampQ burn 0 200 →
      (LanderPhysics.update dt burn s).fuel = 0 ∧
      (0 < (physBurnOnly dt (clampQ burn 0 200) s).altitude →
       0 ≤ (physRaw dt burn s).altitude →
        (LanderPhysics.update dt burn s).velocityDown
          = s.velocityDown + (1.62 - s.fuel / 200 * 6.0) * (dt * (s.fuel / clampQ burn 0 200))
            + 1.62 * (dt - dt * (s.fuel / clampQ burn 0 200)))) ∧
    (s.fuel = 100 → burn = 200 →
      (LanderPhysics.update dt burn s).fuel = 0 ∧
      (0 < (physBurnOnly dt (clampQ burn 0 200) s).altitude →
       0 ≤ (physRaw dt burn s).altitude →
        (1.62 - 6.0) * dt < (LanderPhysics.update dt burn s).velocityDown - s.velocityDown ∧
        (LanderPhysics.update dt burn s).velocityDown - s.velocityDown < 1.62 * dt)) := by
  refine ⟨?_, ?_, ?_, ?_⟩
  · intro hc
    rw [LanderPhysics.update, groundClamp_fuel]
    simp only [physRaw]
    rw [if_pos hc]
    rfl
  · intro hbc hfuel
    have hne : clampQ burn 0 200 ≠ 0 := ne_of_gt hbc
    have hmin : min (clampQ burn 0 200) s.fuel = clampQ burn 0 200 := min_eq_left hfuel
    constructor
    · rw [LanderPhysics.update, groundClamp_fuel, physRaw_sufficient dt burn s hbc hfuel]
      simp only [physBurnOnly, hmin]
    · intro hraw
      rw [update_velocity_of_nonneg dt burn s hraw, physRaw_sufficient dt burn s hbc hfuel]
      simp only [physBurnOnly, hmin]
      field_simp
  · intro hf0 hflt
    exact ⟨update_fuel_splitBurn dt burn s hf0 hflt,
      fun halt hraw => update_velocity_splitBurn dt burn s hdt hf0 hflt halt hraw⟩
  · intro hfuel hburn
    subst hburn
    have hbc : clampQ 200 0 200 = 200 := by norm_num [clampQ]
    have hf0 : 0 < s.fuel := by rw [hfuel]; norm_num
    have hflt : s.fuel < clampQ 200 0 200 := by rw [hfuel, hbc]; norm_num
    refine ⟨update_fuel_splitBurn dt 200 s hf0 hflt, fun halt hraw => ?_⟩
    have hv := update_velocity_splitBurn dt 200 s hdt hf0 hflt halt hraw
    rw [hv, hfuel, hbc]
    constructor <;> nlinarith


/-- C3 counterexample: with `fuel = 100`, `requestedBurn = 200`, `dt = 1`
the code burns at the reduced acceleration `(100/200)*6.0 = 3.0` for half
the step (final velocity `50.12`), not at the full clamped-burn
acceleration `6.0` as the claim states (which would give
`50 + (1.62-6.0)*0.5 + 1.62*0.5 = 48.62`). -/
theorem C3_reduced_thrust_counterexample :
    (LanderPhysics.update 1 200 ⟨1500, 50, 100⟩).velocityDown = 50.12 ∧
    (50.12 : ℚ) ≠ 50 + (1.62 - 200 / 200 * 6.0) * (1 * (100 / 200))
      + 1.62 * (1 - 1 * (100 / 200)) := by
  constructor
  · norm_num [LanderPhysics.update, physRaw, physBurnOnly, physCoastFrom, groundClamp, clampQ]
  · norm_num

/-- C3 witness: the partial-burn scenario at `dt = 1` from the default
altitude and velocity with half-a-step of fuel: fuel ends at exactly 0 and
the velocity change sits strictly between full thrust and pure gravity. -/
theorem C3_thrust_model_witness :
    (LanderPhysics.update 1 200 ⟨1500, 50, 100⟩).fuel = 0 ∧
    (1.62 - 6.0) * 1 < (LanderPhysics.update 1 200 ⟨1500, 50, 100⟩).velocityDown - 50 ∧
    (LanderPhysics.update 1 200 ⟨1500, 50, 100⟩).velocityDown - 50 < 1.62 * 1 := by
  obtain ⟨hfuel, hbounds⟩ :=
    (C3_thrust_model 1 200 ⟨1500, 50, 100⟩ (by norm_num)).2.2.2 rfl rfl
  have hb := hbounds (by norm_num [physBurnOnly, clampQ])
    (by norm_num [physRaw, physBurnOnly, physCoastFrom, clampQ])
  exact ⟨hfuel, hb.1, hb.2⟩

theorem llAccel_eq (burn : ℝ) :
    llAccel burn = 1.62 - 6.0 * (clampR (jsRound burn) 0 200 / 200) := by
  simp only [llAccel]
  rw [if_pos (by norm_num : (200 : ℝ) > 0)]

theorem clampR_jsRound_int (burn : ℝ) :
    ∃ k : ℤ, clampR (jsRound burn) 0 200 = (k : ℝ) ∧ 0 ≤ k ∧ k ≤ 200 := by
  refine ⟨max 0 (min 200 ⌊burn + 0.5⌋), ?_, le_max_left _ _, ?_⟩
  · rw [clampR, jsRound]
    push_cast
    rfl
  · exact max_le (by norm_num) (min_le_left _ _)

theorem llAccel_nondegenerate (burn : ℝ) (hb : clampR (jsRound burn) 0 200 ≠ 54) :
    1e-8 ≤ |0.5 * llAccel burn| := by
  obtain ⟨k, hk, -, -⟩ := clampR_jsRound_int burn
  have hk54 : k ≠ 54 := by
    intro h
    rw [h] at hk
    exact hb (by rw [hk]; norm_num)
  have habs : (1 : ℤ) ≤ |54 - k| := Int.one_le_abs (by omega)
  have habsR : (1 : ℝ) ≤ |(54 : ℝ) - (k : ℝ)| := by
    exact_mod_cast habs
  have hval : 0.5 * llAccel burn = 3 / 200 * ((54 : ℝ) - (k : ℝ)) := by
    rw [llAccel_eq, hk]
    ring
  rw [hval, abs_mul, abs_of_pos (by norm_num : (0:ℝ) < 3 / 200)]
  nlinarith

theorem llAccel_54 (burn : ℝ) (hb : clampR (jsRound burn) 0 200 = 54) :
    llAccel burn = 0 := by
  rw [llAccel_eq, hb]
  norm_num


theorem physRaw_fuel_bounds (dt burn : ℚ) (p : PhysState) (hpf : 0 ≤ p.fuel) :
    0 ≤ (physRaw dt burn p).fuel ∧ (physRaw dt burn p).fuel ≤ p.fuel := by
  simp only [physRaw]
  split_ifs with h1 h2
  · exact ⟨hpf, le_refl _⟩
  · push_neg at h1
    show 0 ≤ (physBurnOnly dt (clampQ burn 0 200) p).fuel ∧
      (physBurnOnly dt (clampQ burn 0 200) p).fuel ≤ p.fuel
    simp only [physBurnOnly]
    constructor
    · simp only [sub_nonneg]
      exact min_le_right _ _
    · have : 0 ≤ min (clampQ burn 0 200) p.fuel := le_min (le_of_lt h1.1) hpf
      linarith
  · push_neg at h1
    simp only [physBurnOnly]
    constructor
    · simp only [sub_nonneg]
      exact min_le_right _ _
    · have : 0 ≤ min (clampQ burn 0 200) p.fuel := le_min (le_of_lt h1.1) hpf
      linarith

/-- C5 (amended): fuel is non-negative and non-increasing across every
step of the React component, and `LanderPhysics.update` preserves both
non-negativity invariants; the React step also keeps the altitude
non-negative except in one corner — requested burn rounding/clamping to
exactly 54 (making the net acceleration exactly 0) while the downward
velocity is positive but at most the solver's `1e-8` epsilon — where the
altitude can end negative (see the counterexample). -/
theorem C5_invariants (dt burn : ℝ) (s : SimState ℝ) (hdt : 0 < dt)
    (hh : 0 ≤ s.altitude) (hf : 0 ≤ s.fuel) :
    (0 ≤ (llStepOnce dt burn s).fuel ∧ (llStepOnce dt burn s).fuel ≤ s.fuel) ∧
    (clampR (jsRound burn) 0 200 ≠ 54 ∨ 1e-8 < s.velocityDown ∨ s.velocityDown ≤ 0 →
      0 ≤ (llStepOnce dt burn s).altitude) ∧
    (∀ (dtq burnq : ℚ) (p : PhysState), 0 ≤ p.fuel →
      0 ≤ (LanderPhysics.update dtq burnq p).altitude ∧
      0 ≤ (LanderPhysics.update dtq burnq p).fuel ∧
      (LanderPhysics.update dtq burnq p).fuel ≤ p.fuel) := by
  have hphys : ∀ (dtq burnq : ℚ) (p : PhysState), 0 ≤ p.fuel →
      0 ≤ (LanderPhysics.update dtq burnq p).altitude ∧
      0 ≤ (LanderPhysics.update dtq burnq p).fuel ∧
      (LanderPhysics.update dtq burnq p).fuel ≤ p.fuel := by
    intro dtq burnq p hpf
    obtain ⟨hf1, hf2⟩ := physRaw_fuel_bounds dtq burnq p hpf
    refine ⟨?_, ?_, ?_⟩
    · rw [LanderPhysics.update, groundClamp]
      split_ifs with hlt
      · exact le_refl 0
      · exact not_lt.mp hlt
    · rw [LanderPhysics.update, groundClamp_fuel]
      exact hf1
    · rw [LanderPhysics.update, groundClamp_fuel]
      exact hf2
  by_cases hcan : (s.status = Status.flying ∨ s.status = Status.out_of_fuel) ∧ 0 < s.altitude
  · have hb0 : 0 ≤ clampR (jsRound burn) 0 200 := le_max_left 0 _
    have hfuelA : 0 ≤ max 0 (s.fuel - clampR (jsRound burn) 0 200) := le_max_left 0 _
    have hfuelB : max 0 (s.fuel - clampR (jsRound burn) 0 200) ≤ s.fuel :=
      max_le hf (by linarith)
    cases hcase : interpolateTouchdown s.altitude s.velocityDown (llAccel burn) dt with
    | some tv =>
      obtain ⟨t, vc⟩ := tv
      rw [llStepOnce_contact dt burn t vc s hcan.1 hcan.2 hcase]
      exact ⟨⟨hfuelA, hfuelB⟩, fun _ => le_refl 0, hphys⟩
    | none =>
      rw [llStepOnce_noContact dt burn s hcan.1 hcan.2 hcase]
      refine ⟨⟨hfuelA, hfuelB⟩, ?_, hphys⟩
      intro hside
      have hcnone : contactTime s.altitude s.velocityDown (llAccel burn) dt = none := by
        rw [interpolateTouchdown, Option.map_eq_none'] at hcase
        exact hcase
      by_cases hb54 : clampR (jsRound burn) 0 200 = 54
      · have ha : llAccel burn = 0 := llAccel_54 burn hb54
        have hv : 1e-8 < s.velocityDown ∨ s.velocityDown ≤ 0 := by
          rcases hside with h' | h' | h'
          · exact absurd hb54 h'
          · exact Or.inl h'
          · exact Or.inr h'
        rw [ha] at hcnone
        have := contactTime_none_linear s.altitude s.velocityDown dt hcan.2 hdt hv hcnone
        rw [ha]
        nlinarith
      · have := contactTime_none_quadratic s.altitude s.velocityDown (llAccel burn) dt
          hcan.2 hdt (llAccel_nondegenerate burn hb54) hcnone
        linarith
  · rw [llStepOnce, if_neg hcan]
    exact ⟨⟨hf, le_refl _⟩, fun _ => hh, hphys⟩

/-- C5 counterexample: from the valid state `altitude = 1e-8 ≥ 0`,
`velocityDown = 1e-8`, `fuel = 100 ≥ 0`, one React step with burn 54
(net acceleration exactly 0, velocity not above the solver's epsilon)
drives the stored altitude strictly negative. -/
theorem C5_negative_altitude_counterexample :
    (0 : ℝ) ≤ 1e-8 ∧ (0 : ℝ) ≤ 100 ∧
    (llStepOnce 10 54 ⟨1e-8, 1e-8, 100, 0, Status.flying⟩).altitude < 0 := by
  refine ⟨by norm_num, by norm_num, ?_⟩
  have ha : llAccel 54 = 0 := by
    unfold llAccel clampR jsRound
    norm_num
  have hc : interpolateTouchdown 1e-8 1e-8 (0 : ℝ) 10 = none := by
    unfold interpolateTouchdown contactTime
    norm_num
  norm_num at hc
  simp only [llStepOnce, ha]
  norm_num [hc]

/-- C5 witness: the invariants evaluated on one zero-burn step from the
default start state, plus one `LanderPhysics.update` call. -/
theorem C5_invariants_witness :
    0 ≤ (llStepOnce 10 0 ⟨1500, 50, 1200, 0, Status.flying⟩).fuel ∧
    (llStepOnce 10 0 ⟨1500, 50, 1200, 0, Status.flying⟩).fuel ≤ 1200 ∧
    0 ≤ (llStepOnce 10 0 ⟨1500, 50, 1200, 0, Status.flying⟩).altitude ∧
    0 ≤ (LanderPhysics.update 10 0 ⟨1500, 50, 1200⟩).altitude := by
  obtain ⟨⟨h1, h2⟩, h3, h4⟩ := C5_invariants 10 0 ⟨1500, 50, 1200, 0, Status.flying⟩
    (by norm_num) (by norm_num) (by norm_num)
  refine ⟨h1, h2, h3 (Or.inl ?_), (h4 10 0 ⟨1500, 50, 1200⟩ (by norm_num)).1⟩
  unfold clampR jsRound
  norm_num


theorem llAccel_200 : llAccel 200 = -(219 / 50) := by
  unfold llAccel clampR jsRound
  norm_num

theorem c9_step_preserves (s : SimState ℝ)
    (h1 : s.status = Status.flying ∨ s.status = Status.out_of_fuel)
    (h2 : 0 < s.altitude)
    (h3 : s.velocityDown ^ 2 - 219 / 25 * s.altitude ≤ -10640) :
    ((llStepOnce 10 200 s).status = Status.flying ∨
      (llStepOnce 10 200 s).status = Status.out_of_fuel) ∧
    0 < (llStepOnce 10 200 s).altitude ∧
    (llStepOnce 10 200 s).velocityDown ^ 2
      - 219 / 25 * (llStepOnce 10 200 s).altitude ≤ -10640 := by
  have hdisc : s.velocityDown * s.velocityDown
      - 4 * (0.5 * -(219 / 50)) * -s.altitude ≤ -10640 := by nlinarith
  have hcnone : contactTime s.altitude s.velocityDown (llAccel 200) 10 = none := by
    rw [llAccel_200]
    simp only [contactTime]
    rw [if_neg (show ¬ |0.5 * -(219 / 50 : ℝ)| < 1e-8 by rw [abs_of_neg] <;> norm_num)]
    rw [if_neg (show ¬ (s.velocityDown * s.velocityDown - 4 * (0.5 * -(219 / 50)) * -s.altitude < 0
        ∧ s.velocityDown * s.velocityDown - 4 * (0.5 * -(219 / 50)) * -s.altitude > -1e-12)
      from fun hc => by nlinarith [hc.2])]
    rw [if_neg (show ¬ (0 : ℝ) ≤ s.velocityDown * s.velocityDown
        - 4 * (0.5 * -(219 / 50)) * -s.altitude from by nlinarith)]
  have hcase : interpolateTouchdown s.altitude s.velocityDown (llAccel 200) 10 = none := by
    rw [interpolateTouchdown, hcnone]
    rfl
  rw [llStepOnce_noContact 10 200 s h1 h2 hcase, llAccel_200]
  refine ⟨?_, ?_, ?_⟩
  · show (if max 0 (s.fuel - clampR (jsRound 200) 0 200) ≤ 0 ∧ s.status = Status.flying
        then Status.out_of_fuel else s.status) = Status.flying ∨ _
    split_ifs with hcond
    · exact Or.inr rfl
    · exact h1
  · show 0 < s.altitude - s.velocityDown * 10 - 0.5 * -(219 / 50) * 10 * 10
    by_contra hcon
    push_neg at hcon
    have h10v : s.altitude + 219 ≤ 10 * s.velocityDown := by nlinarith
    have hsq : (s.altitude + 219) * (s.altitude + 219)
        ≤ (10 * s.velocityDown) * (10 * s.velocityDown) :=
      mul_self_le_mul_self (by linarith) h10v
    nlinarith [hsq, h3, sq_nonneg (s.altitude - 219)]
  · show (s.velocityDown + -(219 / 50) * 10) ^ 2
        - 219 / 25 * (s.altitude - s.velocityDown * 10 - 0.5 * -(219 / 50) * 10 * 10) ≤ -10640
    nlinarith [h3]

/-- C9 (code bug): iterating `advance(10, 200)` from the default start
never reaches a terminal status.  Because the React step applies thrust
regardless of remaining fuel, the net acceleration stays `-4.38` forever,
the quantity `v^2 - 8.76*h` is conserved at `-10640 < 0` (so the touchdown
solver never fires), and the lander climbs indefinitely; the status stays
`flying`/`out_of_fuel` after every number of steps, including 50. -/
theorem C9_never_terminal (n : ℕ) :
    ((llStepOnce 10 200)^[n] defaultStart).status = Status.flying ∨
    ((llStepOnce 10 200)^[n] defaultStart).status = Status.out_of_fuel := by
  have key : ∀ m : ℕ,
      (((llStepOnce 10 200)^[m] defaultStart).status = Status.flying ∨
        ((llStepOnce 10 200)^[m] defaultStart).status = Status.out_of_fuel) ∧
      0 < ((llStepOnce 10 200)^[m] defaultStart).altitude ∧
      ((llStepOnce 10 200)^[m] defaultStart).velocityDown ^ 2
        - 219 / 25 * ((llStepOnce 10 200)^[m] defaultStart).altitude ≤ -10640 := by
    intro m
    induction m with
    | zero =>
      refine ⟨Or.inl rfl, ?_, ?_⟩
      · show (0 : ℝ) < 1500
        norm_num
      · show (50 : ℝ) ^ 2 - 219 / 25 * 1500 ≤ -10640
        norm_num
    | succ m ih =>
      rw [Function.iterate_succ_apply']
      exact c9_step_preserves _ ih.1 ih.2.1 ih.2.2
  exact (key n).1

/-- C9 witness: after 50 steps of `advance(10, 200)` from the defaults the
session is still airborne (status `flying` or `out_of_fuel`), refuting
termination within 50 steps. -/
theorem C9_never_terminal_witness :
    ((llStepOnce 10 200)^[50] defaultStart).status = Status.flying ∨
    ((llStepOnce 10 200)^[50] defaultStart).status = Status.out_of_fuel :=
  C9_never_terminal 50

end LunarLanderSpec
